import Mathlib

/-!
Shallow embedding of the journal-tracked migration runner in
`src/db/migrate.ts` of the talethreads-backend repository.

The runner's effects (filesystem reads, SQL execution, journal writes) are
modelled by an explicit environment `Env` and an action trace.  Pure helpers
(`getMigrationFiles`, `getAppliedMigrations`, `getPendingMigrations`) are
translated directly; the apply and rollback loops become structural
recursions that return the success count, the emitted action trace and the
final on-disk journal.  JavaScript peculiarities kept faithfully:
`file.replace('.sql', '')` replaces only the first occurrence; the `journal`
variable read at the start of a run is never rebound inside the loops, so
every journal written to disk is derived from that stale snapshot;
`Array.prototype.sort()` on filenames is lexicographic; `if (target)` and
`count && count > 0` are JavaScript truthiness tests.
-/

namespace Migrate

/-- One applied migration recorded in `_journal.json` (interface MigrationEntry). -/
structure MigrationEntry where
  idx : Nat
  version : String
  whenMs : Nat
  tag : String
  breakpoints : Bool
deriving Repr, DecidableEq

/-- The journal file contents (interface MigrationJournal). -/
structure MigrationJournal where
  version : String
  dialect : String
  entries : List MigrationEntry
deriving Repr, DecidableEq

/-- Observable effects of a run: SQL executed against the database
(`db.execute(content)` inside `executeMigration`, recorded with the filename
that triggered it) and attempted journal writes (`saveMigrationJournal`). -/
inductive Action where
  | dbExec (filename : String) (sql : String)
  | journalWrite (journal : MigrationJournal)
deriving Repr, DecidableEq

/-- Environment a run executes in: the directory listing (`readdirSync`,
`none` = directory missing/unreadable), the parsed on-disk journal
(`readMigrationJournal`, `none` = missing or unparseable), per-file contents
(`readFileSync`, `none` = unreadable), whether `db.execute` succeeds on a
given SQL text, whether `writeFileSync` on the journal succeeds, and the
clock. -/
structure Env where
  dirListing : Option (List String)
  journalOnDisk : Option MigrationJournal
  fileContent : String → Option String
  execOk : String → Bool
  saveOk : Bool
  now : Nat

/-- JavaScript `s.replace(pat, '')` on character lists: remove the first
occurrence of `pat` only. -/
def replaceFirstAux (pat : List Char) : List Char → List Char
  | [] => []
  | c :: rest =>
    if pat.isPrefixOf (c :: rest) then (c :: rest).drop pat.length
    else c :: replaceFirstAux pat rest

/-- JavaScript `s.replace(pat, '')`: remove the first occurrence of `pat`. -/
def replaceFirst (s pat : String) : String :=
  ⟨replaceFirstAux pat.data s.data⟩

/-- JavaScript `file.endsWith(".sql")`. -/
def strEndsWith (s suffix : String) : Bool :=
  suffix.data.isSuffixOf s.data

/-- Lexicographic less-or-equal on character lists: the comparison JavaScript's
default `Array.prototype.sort()` performs on strings. -/
def jsLeb : List Char → List Char → Bool
  | [], _ => true
  | _ :: _, [] => false
  | a :: as, b :: bs => if a < b then true else if b < a then false else jsLeb as bs

/-- Lexicographic string order used by `Array.prototype.sort()`. -/
def jsLe (s t : String) : Prop := jsLeb s.data t.data = true

instance : DecidableRel jsLe := fun s t =>
  instDecidableEqBool (jsLeb s.data t.data) true

/-- JavaScript `Array.prototype.findIndex`. -/
def findIndex (p : MigrationEntry → Bool) : List MigrationEntry → Option Nat
  | [] => none
  | e :: rest => if p e then some 0 else (findIndex p rest).map (· + 1)

/-- `readMigrationJournal()`: in the embedding the parsed result is part of
the environment. -/
def readMigrationJournal (env : Env) : Option MigrationJournal :=
  env.journalOnDisk

/-- `getMigrationFiles()`: list the migrations directory, keep `.sql` files,
sort lexicographically; a missing/unreadable directory yields `[]`. -/
def getMigrationFiles (listing : Option (List String)) : List String :=
  match listing with
  | none => []
  | some files => (files.filter (fun f => strEndsWith f ".sql")).insertionSort jsLe

/-- `readMigrationFile(filename)`. -/
def readMigrationFile (env : Env) (filename : String) : Option String :=
  env.fileContent filename

/-- `getAppliedMigrations(journal)`: the tags of the journal's entries
(a JS `Set`, modelled as the list of tags with membership lookup). -/
def getAppliedMigrations (journal : Option MigrationJournal) : List String :=
  match journal with
  | some j => j.entries.map MigrationEntry.tag
  | none => []

/-- `getPendingMigrations(files, applied)`: files whose tag
(`file.replace('.sql','')`) is not yet applied. -/
def getPendingMigrations (files : List String) (applied : List String) : List String :=
  files.filter (fun file => !(applied.contains (replaceFirst file ".sql")))

/-- `executeMigration(db, filename)`: read the file (failure → `false` with
no database action), then execute its content; returns the success flag and
the database actions performed. -/
def executeMigration (env : Env) (filename : String) : Bool × List Action :=
  match readMigrationFile env filename with
  | none => (false, [])
  | some content => (env.execOk content, [Action.dbExec filename content])

/-- The `for (const file of pending)` loop of `runMigrations`.  `journal` is
the `const` journal read at the start of the run: it is never rebound, so
each `updatedJournal` extends that stale snapshot.  `disk` is the evolving
on-disk journal.  Returns `(successCount, trace, finalDisk)`. -/
def applyLoop (env : Env) (journal : Option MigrationJournal) :
    List String → Option MigrationJournal → Nat × List Action × Option MigrationJournal
  | [], disk => (0, [], disk)
  | file :: rest, disk =>
    let tag := replaceFirst file ".sql"
    let r := executeMigration env file
    if r.1 then
      match journal with
      | some j =>
        let updatedJournal : MigrationJournal :=
          { j with entries := j.entries ++
              [{ idx := j.entries.length, version := j.version, whenMs := env.now,
                 tag := tag, breakpoints := true }] }
        let disk2 := if env.saveOk then some updatedJournal else disk
        let rec' := applyLoop env journal rest disk2
        (rec'.1 + 1, r.2 ++ [Action.journalWrite updatedJournal] ++ rec'.2.1, rec'.2.2)
      | none =>
        let rec' := applyLoop env journal rest disk
        (rec'.1 + 1, r.2 ++ rec'.2.1, rec'.2.2)
    else
      (0, r.2, disk)

/-- Outcome of a run: the thrown error message if any, the action trace, and
the on-disk journal afterwards. -/
structure RunResult where
  error : Option String
  trace : List Action
  finalJournal : Option MigrationJournal
deriving Repr, DecidableEq

/-- `runMigrations()`: read journal and files, compute pending, early-return
when nothing is pending, otherwise run the apply loop and throw
`Failed after S/N migrations` unless every pending migration succeeded. -/
def runMigrations (env : Env) : RunResult :=
  let journal := readMigrationJournal env
  let files := getMigrationFiles env.dirListing
  let applied := getAppliedMigrations journal
  let pending := getPendingMigrations files applied
  if pending.length = 0 then
    { error := none, trace := [], finalJournal := env.journalOnDisk }
  else
    let r := applyLoop env journal pending env.journalOnDisk
    if r.1 = pending.length then
      { error := none, trace := r.2.1, finalJournal := r.2.2 }
    else
      { error := some ("Failed after " ++ toString r.1 ++ "/" ++
          toString pending.length ++ " migrations"),
        trace := r.2.1, finalJournal := r.2.2 }

/-- The default rollback selection: the single most recent entry
(`journal.entries[journal.entries.length - 1]`, empty if absent). -/
def defaultSelect (journal : MigrationJournal) : List MigrationEntry :=
  match journal.entries.getLast? with
  | none => []
  | some last => [last]

/-- The `else if (count && count > 0)` / `else` branches of
`rollbackMigrations`: a positive count selects the last `count` entries
(`slice(Math.max(0, length - count))`), anything else falls to the default. -/
def selectByCountOrDefault (journal : MigrationJournal) (count : Option Int) :
    List MigrationEntry :=
  match count with
  | some c =>
    if c > 0 then
      journal.entries.drop (Int.toNat (max 0 ((journal.entries.length : Int) - c)))
    else defaultSelect journal
  | none => defaultSelect journal

/-- The `for (let i = toRollback.length - 1; i >= 0; i--)` loop of
`rollbackMigrations`, already given the reversed `toRollback` list.
`journal` is again the stale snapshot from the start of the run: each
successful step persists `journal.entries.filter(e => e.tag !== migration.tag)`,
i.e. the original entries minus only the current tag. -/
def rollbackLoop (env : Env) (journal : MigrationJournal) :
    List MigrationEntry → Option MigrationJournal → Nat × List Action × Option MigrationJournal
  | [], disk => (0, [], disk)
  | migration :: rest, disk =>
    let filename := migration.tag ++ ".sql"
    let r := executeMigration env filename
    if r.1 then
      let updatedJournal : MigrationJournal :=
        { journal with entries := journal.entries.filter (fun e => !(e.tag == migration.tag)) }
      let disk2 := if env.saveOk then some updatedJournal else disk
      let rec' := rollbackLoop env journal rest disk2
      (rec'.1 + 1, r.2 ++ [Action.journalWrite updatedJournal] ++ rec'.2.1, rec'.2.2)
    else
      (0, r.2, disk)

/-- `rollbackMigrations(target?, count?)`: no-op success when the journal is
absent or empty; otherwise select `toRollback` by target tag (throwing
`Migration not found: target` when no entry matches), by positive count, or
default to the most recent entry; no-op success when the selection is empty;
otherwise undo in reverse order, throwing `Rollback failed after S/N
migrations` unless every step succeeded.  JavaScript truthiness: an empty
target string falls through to the count branch. -/
def rollbackMigrations (env : Env) (target : Option String) (count : Option Int) :
    RunResult :=
  match readMigrationJournal env with
  | none => { error := none, trace := [], finalJournal := env.journalOnDisk }
  | some journal =>
    if journal.entries.length = 0 then
      { error := none, trace := [], finalJournal := env.journalOnDisk }
    else
      let sel : Except String (List MigrationEntry) :=
        match target with
        | some t =>
          if t == "" then Except.ok (selectByCountOrDefault journal count)
          else
            match findIndex (fun e => e.tag == t) journal.entries with
            | none => Except.error ("Migration not found: " ++ t)
            | some targetIndex => Except.ok (journal.entries.drop (targetIndex + 1))
        | none => Except.ok (selectByCountOrDefault journal count)
      match sel with
      | Except.error msg =>
        { error := some msg, trace := [], finalJournal := env.journalOnDisk }
      | Except.ok toRollback =>
        if toRollback.length = 0 then
          { error := none, trace := [], finalJournal := env.journalOnDisk }
        else
          let r := rollbackLoop env journal toRollback.reverse env.journalOnDisk
          if r.1 = toRollback.length then
            { error := none, trace := r.2.1, finalJournal := r.2.2 }
          else
            { error := some ("Rollback failed after " ++ toString r.1 ++ "/" ++
                toString toRollback.length ++ " migrations"),
              trace := r.2.1, finalJournal := r.2.2 }

/-- The filenames for which a database execution was attempted, in order. -/
def dbExecFiles (tr : List Action) : List String :=
  tr.filterMap (fun a => match a with | Action.dbExec f _ => some f | _ => none)

/-- The journal snapshots whose write was attempted, in order. -/
def journalWrites (tr : List Action) : List MigrationJournal :=
  tr.filterMap (fun a => match a with | Action.journalWrite j => some j | _ => none)

/-- The pending list a run computes from its environment. -/
def pendingOf (env : Env) : List String :=
  getPendingMigrations (getMigrationFiles env.dirListing)
    (getAppliedMigrations env.journalOnDisk)

lemma jsLeb_total : ∀ xs ys : List Char, jsLeb xs ys = true ∨ jsLeb ys xs = true := by
  intro xs
  induction xs with
  | nil => intro ys; left; cases ys <;> rfl
  | cons a as ih =>
    intro ys
    cases ys with
    | nil => right; rfl
    | cons b bs =>
      rcases lt_trichotomy a b with h | h | h
      · left; simp [jsLeb, h]
      · subst h
        rcases ih bs with h' | h'
        · left; simp [jsLeb, h']
        · right; simp [jsLeb, h']
      · right; simp [jsLeb, h]

lemma jsLeb_trans : ∀ xs ys zs : List Char,
    jsLeb xs ys = true → jsLeb ys zs = true → jsLeb xs zs = true := by
  intro xs
  induction xs with
  | nil => intro ys zs _ _; cases zs <;> rfl
  | cons a as ih =>
    intro ys zs h1 h2
    cases ys with
    | nil => simp [jsLeb] at h1
    | cons b bs =>
      cases zs with
      | nil => simp [jsLeb] at h2
      | cons c cs =>
        by_cases hab : a < b
        · by_cases hbc : b < c
          · simp [jsLeb, lt_trans hab hbc]
          · by_cases hcb : c < b
            · simp [jsLeb, hcb, not_lt_of_lt hcb] at h2
            · have : b = c := le_antisymm (le_of_not_lt hcb) (le_of_not_lt hbc)
              subst this
              simp [jsLeb, hab]
        · by_cases hba : b < a
          · simp [jsLeb, hab, hba] at h1
          · have : a = b := le_antisymm (le_of_not_lt hba) (le_of_not_lt hab)
            subst this
            by_cases hac : a < c
            · simp [jsLeb, hac]
            · by_cases hca : c < a
              · simp [jsLeb, hca, hac] at h2
              · simp [jsLeb, hab, hba] at h1
                simp [jsLeb, hac, hca] at h2 ⊢
                exact ih bs cs h1 h2

lemma jsLeb_antisymm : ∀ xs ys : List Char,
    jsLeb xs ys = true → jsLeb ys xs = true → xs = ys := by
  intro xs
  induction xs with
  | nil => intro ys h1 h2; cases ys with
    | nil => rfl
    | cons b bs => simp [jsLeb] at h2
  | cons a as ih =>
    intro ys h1 h2
    cases ys with
    | nil => simp [jsLeb] at h1
    | cons b bs =>
      by_cases hab : a < b
      · simp [jsLeb, hab, not_lt_of_lt hab] at h2
      · by_cases hba : b < a
        · simp [jsLeb, hab, hba] at h1
        · have hEq : a = b := le_antisymm (le_of_not_lt hba) (le_of_not_lt hab)
          subst hEq
          simp [jsLeb, hab] at h1 h2
          exact congrArg (a :: ·) (ih bs h1 h2)

lemma String.data_injective : ∀ {s t : String}, s.data = t.data → s = t := by
  intro s t h
  cases s; cases t; exact congrArg String.mk h

instance : IsTotal String jsLe := ⟨fun s t => jsLeb_total s.data t.data⟩

instance : IsTrans String jsLe := ⟨fun a b c => jsLeb_trans a.data b.data c.data⟩

instance : IsAntisymm String jsLe :=
  ⟨fun a b h1 h2 => String.data_injective (jsLeb_antisymm a.data b.data h1 h2)⟩

lemma jsLeb_iff_not_lt : ∀ xs ys : List Char, jsLeb xs ys = true ↔ ¬ ys < xs := by
  intro xs
  induction xs with
  | nil =>
    intro ys
    constructor
    · intro _ h
      cases h
    · intro _
      cases ys <;> rfl
  | cons a as ih =>
    intro ys
    cases ys with
    | nil =>
      constructor
      · intro h
        simp [jsLeb] at h
      · intro h
        exact absurd List.Lex.nil h
    | cons b bs =>
      by_cases hab : a < b
      · constructor
        · intro _ h
          cases h with
          | cons h3 => exact absurd hab (lt_irrefl a)
          | rel hba => exact absurd hab (lt_asymm hba)
        · intro _
          simp [jsLeb, hab]
      · by_cases hba : b < a
        · constructor
          · intro h
            simp [jsLeb, hab, hba] at h
          · intro h
            exact absurd (List.Lex.rel hba) h
        · have heq : a = b := le_antisymm (le_of_not_lt hba) (le_of_not_lt hab)
          subst heq
          constructor
          · intro h hlt
            have htail : jsLeb as bs = true := by simpa [jsLeb, hab] using h
            cases hlt with
            | cons h3 => exact (ih bs).mp htail h3
            | rel h3 => exact lt_irrefl a h3
          · intro h
            have hnlt : ¬ bs < as := fun hlt => h (List.Lex.cons hlt)
            simp [jsLeb, hab]
            exact (ih bs).mpr hnlt

/-- The comparison used by the embedded `Array.prototype.sort()` agrees with
the standard lexicographic order on strings. -/
lemma jsLe_iff_le (s t : String) : jsLe s t ↔ s ≤ t := by
  rw [String.le_iff_toList_le, ← not_lt]
  exact jsLeb_iff_not_lt s.data t.data
lemma dbExecFiles_append (a b : List Action) :
    dbExecFiles (a ++ b) = dbExecFiles a ++ dbExecFiles b := by
  simp [dbExecFiles]

lemma journalWrites_append (a b : List Action) :
    journalWrites (a ++ b) = journalWrites a ++ journalWrites b := by
  simp [journalWrites]

lemma executeMigration_eq_of_content {env : Env} {f c : String}
    (hc : env.fileContent f = some c) :
    executeMigration env f = (env.execOk c, [Action.dbExec f c]) := by
  simp [executeMigration, readMigrationFile, hc]

lemma executeMigration_success {env : Env} {f : String}
    (h : (executeMigration env f).1 = true) :
    ∃ c, env.fileContent f = some c ∧ env.execOk c = true ∧
      executeMigration env f = (true, [Action.dbExec f c]) := by
  cases hc : env.fileContent f with
  | none => simp [executeMigration, readMigrationFile, hc] at h
  | some c =>
    have hEM := executeMigration_eq_of_content hc
    rw [hEM] at h
    have hok : env.execOk c = true := by simpa using h
    exact ⟨c, rfl, hok, by rw [hEM, hok]⟩

lemma journalWrites_executeMigration (env : Env) (f : String) :
    journalWrites (executeMigration env f).2 = [] := by
  cases hc : env.fileContent f <;>
    simp [executeMigration, readMigrationFile, hc, journalWrites]

lemma dbExecFiles_nil : dbExecFiles [] = [] := rfl

lemma dbExecFiles_cons_exec (f c : String) (tr : List Action) :
    dbExecFiles (Action.dbExec f c :: tr) = f :: dbExecFiles tr := rfl

lemma dbExecFiles_cons_write (j : MigrationJournal) (tr : List Action) :
    dbExecFiles (Action.journalWrite j :: tr) = dbExecFiles tr := rfl

lemma journalWrites_nil : journalWrites [] = [] := rfl

lemma journalWrites_cons_exec (f c : String) (tr : List Action) :
    journalWrites (Action.dbExec f c :: tr) = journalWrites tr := rfl

lemma journalWrites_cons_write (j : MigrationJournal) (tr : List Action) :
    journalWrites (Action.journalWrite j :: tr) = j :: journalWrites tr := rfl

lemma applyLoop_success_all (env : Env) (jrnl : Option MigrationJournal) :
    ∀ (l : List String) (disk : Option MigrationJournal),
      (∀ f ∈ l, (executeMigration env f).1 = true) →
      (applyLoop env jrnl l disk).1 = l.length ∧
      dbExecFiles (applyLoop env jrnl l disk).2.1 = l := by
  intro l
  induction l with
  | nil => intro disk _; exact ⟨rfl, rfl⟩
  | cons f rest ih =>
    intro disk hall
    obtain ⟨c, hc, hok, hEM⟩ :=
      executeMigration_success (hall f (List.mem_cons_self f rest))
    have hrest : ∀ g ∈ rest, (executeMigration env g).1 = true :=
      fun g hg => hall g (List.mem_cons_of_mem f hg)
    cases jrnl with
    | some j =>
      constructor
      · simp [applyLoop, hEM]
        exact (ih _ hrest).1
      · simp [applyLoop, hEM, dbExecFiles_cons_exec, dbExecFiles_cons_write]
        exact (ih _ hrest).2
    | none =>
      constructor
      · simp [applyLoop, hEM]
        exact (ih _ hrest).1
      · simp [applyLoop, hEM, dbExecFiles_cons_exec, dbExecFiles_cons_write]
        exact (ih _ hrest).2

lemma applyLoop_none_frame (env : Env) :
    ∀ (l : List String) (disk : Option MigrationJournal),
      journalWrites (applyLoop env none l disk).2.1 = [] ∧
      (applyLoop env none l disk).2.2 = disk := by
  intro l
  induction l with
  | nil => intro disk; exact ⟨rfl, rfl⟩
  | cons f rest ih =>
    intro disk
    by_cases hE : (executeMigration env f).1 = true
    · obtain ⟨c, hc, hok, hEM⟩ := executeMigration_success hE
      constructor
      · simp [applyLoop, hEM, journalWrites_cons_exec, journalWrites_cons_write]
        exact (ih disk).1
      · simp [applyLoop, hEM]
        exact (ih disk).2
    · rw [Bool.not_eq_true] at hE
      constructor
      · simp [applyLoop, hE, journalWrites_executeMigration]
      · simp [applyLoop, hE]

lemma applyLoop_saveOk_false_frame (env : Env) (jrnl : Option MigrationJournal)
    (hs : env.saveOk = false) :
    ∀ (l : List String) (disk : Option MigrationJournal),
      (applyLoop env jrnl l disk).2.2 = disk := by
  intro l
  induction l with
  | nil => intro disk; rfl
  | cons f rest ih =>
    intro disk
    by_cases hE : (executeMigration env f).1 = true
    · obtain ⟨c, hc, hok, hEM⟩ := executeMigration_success hE
      cases jrnl with
      | some j => simp [applyLoop, hEM, hs, ih]
      | none => simp [applyLoop, hEM, ih]
    · rw [Bool.not_eq_true] at hE
      simp [applyLoop, hE]

lemma applyLoop_writes_count (env : Env) (j : MigrationJournal) :
    ∀ (l : List String) (disk : Option MigrationJournal),
      (∀ f ∈ l, (executeMigration env f).1 = true) →
      (journalWrites (applyLoop env (some j) l disk).2.1).length = l.length := by
  intro l
  induction l with
  | nil => intro disk _; rfl
  | cons f rest ih =>
    intro disk hall
    obtain ⟨c, hc, hok, hEM⟩ :=
      executeMigration_success (hall f (List.mem_cons_self f rest))
    have hrest : ∀ g ∈ rest, (executeMigration env g).1 = true :=
      fun g hg => hall g (List.mem_cons_of_mem f hg)
    simp [applyLoop, hEM, journalWrites_cons_exec, journalWrites_cons_write]
    exact ih _ hrest

lemma applyLoop_stops_at_failure (env : Env) (jrnl : Option MigrationJournal)
    (bad : String) (rest : List String)
    (hbad : (executeMigration env bad).1 = false) :
    ∀ (good : List String) (disk : Option MigrationJournal),
      (∀ f ∈ good, (executeMigration env f).1 = true) →
      (applyLoop env jrnl (good ++ bad :: rest) disk).1 = good.length ∧
      dbExecFiles (applyLoop env jrnl (good ++ bad :: rest) disk).2.1 =
        good ++ dbExecFiles (executeMigration env bad).2 := by
  intro good
  induction good with
  | nil =>
    intro disk _
    constructor
    · simp [applyLoop, hbad]
    · simp [applyLoop, hbad]
  | cons f g ih =>
    intro disk hall
    obtain ⟨c, hc, hok, hEM⟩ :=
      executeMigration_success (hall f (List.mem_cons_self f g))
    have hg : ∀ x ∈ g, (executeMigration env x).1 = true :=
      fun x hx => hall x (List.mem_cons_of_mem f hx)
    cases jrnl with
    | some j =>
      constructor
      · simp [applyLoop, hEM]
        exact (ih _ hg).1
      · simp [applyLoop, hEM, dbExecFiles_cons_exec, dbExecFiles_cons_write]
        exact (ih _ hg).2
    | none =>
      constructor
      · simp [applyLoop, hEM]
        exact (ih _ hg).1
      · simp [applyLoop, hEM, dbExecFiles_cons_exec, dbExecFiles_cons_write]
        exact (ih _ hg).2

lemma runMigrations_def (env : Env) :
    runMigrations env =
      (if (pendingOf env).length = 0 then
        { error := none, trace := [], finalJournal := env.journalOnDisk }
      else
        (let r := applyLoop env env.journalOnDisk (pendingOf env) env.journalOnDisk
        if r.1 = (pendingOf env).length then
          { error := none, trace := r.2.1, finalJournal := r.2.2 }
        else
          { error := some ("Failed after " ++ toString r.1 ++ "/" ++
              toString (pendingOf env).length ++ " migrations"),
            trace := r.2.1, finalJournal := r.2.2 })) := rfl

lemma pendingOf_eq_nil_of_all_applied (env : Env)
    (hall : ∀ f ∈ getMigrationFiles env.dirListing,
      replaceFirst f ".sql" ∈ getAppliedMigrations env.journalOnDisk) :
    pendingOf env = [] := by
  unfold pendingOf getPendingMigrations
  rw [List.filter_eq_nil_iff]
  intro a ha
  simp
  exact hall a ha

lemma runMigrations_all_success (env : Env)
    (hexec : ∀ f ∈ pendingOf env, (executeMigration env f).1 = true) :
    (runMigrations env).error = none ∧
    dbExecFiles (runMigrations env).trace = pendingOf env := by
  rw [runMigrations_def]
  by_cases h0 : (pendingOf env).length = 0
  · have hnil : pendingOf env = [] := List.length_eq_zero.mp h0
    simp [h0, hnil, dbExecFiles_nil]
  · have hsucc :=
      applyLoop_success_all env env.journalOnDisk (pendingOf env) env.journalOnDisk hexec
    simp [h0, hsucc.1, hsucc.2]

lemma findIndex_eq_none {p : MigrationEntry → Bool} :
    ∀ {l : List MigrationEntry}, (∀ e ∈ l, p e = false) → findIndex p l = none := by
  intro l
  induction l with
  | nil => intro _; rfl
  | cons e rest ih =>
    intro h
    simp [findIndex, h e (List.mem_cons_self e rest),
      ih (fun x hx => h x (List.mem_cons_of_mem e hx))]

/-- C8: when the journal already contains an entry for every discovered
migration file, apply succeeds as a no-op: it makes zero database calls,
attempts zero journal writes, and leaves the on-disk journal unchanged. -/
theorem apply_noop_when_all_applied (env : Env)
    (hall : ∀ f ∈ getMigrationFiles env.dirListing,
      replaceFirst f ".sql" ∈ getAppliedMigrations env.journalOnDisk) :
    runMigrations env =
      { error := none, trace := [], finalJournal := env.journalOnDisk } := by
  rw [runMigrations_def, pendingOf_eq_nil_of_all_applied env hall]
  simp

def journalC8 : MigrationJournal :=
  { version := "7", dialect := "postgresql",
    entries := [{ idx := 0, version := "7", whenMs := 5, tag := "0000_a", breakpoints := true }] }

def envC8 : Env :=
  { dirListing := some ["0000_a.sql"]
    journalOnDisk := some journalC8
    fileContent := fun _ => none
    execOk := fun _ => true
    saveOk := true
    now := 10 }

/-- Witness for C8: a concrete environment whose only migration file is
already recorded in the journal. -/
theorem apply_noop_when_all_applied_witness :
    runMigrations envC8 =
      { error := none, trace := [], finalJournal := envC8.journalOnDisk } :=
  apply_noop_when_all_applied envC8 (by decide)

/-- C9: when the on-disk journal is absent (missing or unparseable), apply
still executes every pending migration against the database but attempts no
journal write, and the journal on disk stays absent. -/
theorem apply_absent_journal_executes_without_persisting (env : Env)
    (hj : env.journalOnDisk = none)
    (hexec : ∀ f ∈ pendingOf env, (executeMigration env f).1 = true) :
    dbExecFiles (runMigrations env).trace = pendingOf env ∧
    journalWrites (runMigrations env).trace = [] ∧
    (runMigrations env).finalJournal = none := by
  refine ⟨(runMigrations_all_success env hexec).2, ?_, ?_⟩ <;>
    rw [runMigrations_def] <;>
    by_cases h0 : (pendingOf env).length = 0
  · simp [h0, journalWrites_nil]
  · have hframe := applyLoop_none_frame env (pendingOf env) none
    have hsucc :=
      applyLoop_success_all env env.journalOnDisk (pendingOf env) env.journalOnDisk hexec
    rw [hj] at hsucc
    simp [h0, hj, hsucc.1, hframe.1]
  · simp [h0, hj]
  · have hframe := applyLoop_none_frame env (pendingOf env) none
    have hsucc :=
      applyLoop_success_all env env.journalOnDisk (pendingOf env) env.journalOnDisk hexec
    rw [hj] at hsucc
    simp [h0, hj, hsucc.1, hframe.2]

def envC9 : Env :=
  { dirListing := some ["0000_a.sql"]
    journalOnDisk := none
    fileContent := fun f => if f = "0000_a.sql" then some "SQLA" else none
    execOk := fun _ => true
    saveOk := true
    now := 10 }

/-- Witness for C9: journal file absent, one pending migration that runs. -/
theorem apply_absent_journal_executes_without_persisting_witness :
    dbExecFiles (runMigrations envC9).trace = pendingOf envC9 ∧
    journalWrites (runMigrations envC9).trace = [] ∧
    (runMigrations envC9).finalJournal = none :=
  apply_absent_journal_executes_without_persisting envC9 rfl (by decide)

/-- C7: migration discovery returns exactly the `.sql` files of the listing,
sorted lexicographically ascending, independent of the order the filesystem
lists them in; a missing or unreadable directory yields an empty sequence;
and apply executes the pending files in exactly that sorted order. -/
theorem discovery_sorted_and_order_independent
    (l1 l2 : List String) (hperm : l1.Perm l2) (env : Env)
    (hexec : ∀ f ∈ pendingOf env, (executeMigration env f).1 = true) :
    getMigrationFiles (some l1) = getMigrationFiles (some l2) ∧
    List.Sorted (· ≤ ·) (getMigrationFiles (some l1)) ∧
    (getMigrationFiles (some l1)).Perm (l1.filter (fun f => strEndsWith f ".sql")) ∧
    getMigrationFiles none = [] ∧
    dbExecFiles (runMigrations env).trace = pendingOf env := by
  have hsort1 :
      List.Sorted jsLe ((l1.filter (fun f => strEndsWith f ".sql")).insertionSort jsLe) :=
    List.sorted_insertionSort jsLe _
  have hsort2 :
      List.Sorted jsLe ((l2.filter (fun f => strEndsWith f ".sql")).insertionSort jsLe) :=
    List.sorted_insertionSort jsLe _
  refine ⟨?_, hsort1.imp (fun h => (jsLe_iff_le _ _).mp h),
    List.perm_insertionSort jsLe _, rfl,
    (runMigrations_all_success env hexec).2⟩
  show (l1.filter (fun f => strEndsWith f ".sql")).insertionSort jsLe =
      (l2.filter (fun f => strEndsWith f ".sql")).insertionSort jsLe
  refine List.eq_of_perm_of_sorted ?_ hsort1 hsort2
  exact ((List.perm_insertionSort jsLe _).trans (hperm.filter _)).trans
    (List.perm_insertionSort jsLe _).symm

def envC7 : Env :=
  { dirListing := some ["0001_b.sql", "0000_a.sql", "notes.txt"]
    journalOnDisk := some { version := "7", dialect := "postgresql", entries := [] }
    fileContent := fun f =>
      if f = "0000_a.sql" then some "SQLA"
      else if f = "0001_b.sql" then some "SQLB"
      else none
    execOk := fun _ => true
    saveOk := true
    now := 10 }

/-- Witness for C7 on concrete listings that are permutations of each other. -/
theorem discovery_sorted_and_order_independent_witness :
    getMigrationFiles (some ["0001_b.sql", "0000_a.sql", "notes.txt"]) =
      getMigrationFiles (some ["notes.txt", "0000_a.sql", "0001_b.sql"]) ∧
    List.Sorted (· ≤ ·) (getMigrationFiles (some ["0001_b.sql", "0000_a.sql", "notes.txt"])) ∧
    (getMigrationFiles (some ["0001_b.sql", "0000_a.sql", "notes.txt"])).Perm
      (["0001_b.sql", "0000_a.sql", "notes.txt"].filter (fun f => strEndsWith f ".sql")) ∧
    getMigrationFiles none = [] ∧
    dbExecFiles (runMigrations envC7).trace = pendingOf envC7 :=
  discovery_sorted_and_order_independent
    ["0001_b.sql", "0000_a.sql", "notes.txt"]
    ["notes.txt", "0000_a.sql", "0001_b.sql"]
    (by decide) envC7 (by decide)

/-- C6: when one pending migration fails (unreadable file or failing SQL),
apply executes nothing after it, and the run is reported as a failure whose
message counts the successes out of the pending total. -/
theorem apply_stops_at_first_failure (env : Env)
    (good : List String) (bad : String) (rest : List String)
    (hp : pendingOf env = good ++ bad :: rest)
    (hgood : ∀ f ∈ good, (executeMigration env f).1 = true)
    (hbad : (executeMigration env bad).1 = false) :
    (runMigrations env).error =
      some ("Failed after " ++ toString good.length ++ "/" ++
        toString (pendingOf env).length ++ " migrations") ∧
    dbExecFiles (runMigrations env).trace =
      good ++ dbExecFiles (executeMigration env bad).2 := by
  have hloop := applyLoop_stops_at_failure env env.journalOnDisk bad rest hbad good
    env.journalOnDisk hgood
  rw [runMigrations_def, hp] at *
  have h0 : ¬ (good ++ bad :: rest).length = 0 := by
    simp
  have hne : ¬ (applyLoop env env.journalOnDisk (good ++ bad :: rest)
      env.journalOnDisk).1 = (good ++ bad :: rest).length := by
    rw [hloop.1]
    simp
  simp only [h0, if_false, hne, ite_false]
  exact ⟨by rw [hloop.1], hloop.2⟩

def envC6 : Env :=
  { dirListing := some ["0000_a.sql", "0001_b.sql", "0002_c.sql"]
    journalOnDisk := some { version := "7", dialect := "postgresql", entries := [] }
    fileContent := fun f =>
      if f = "0000_a.sql" then some "SQLA"
      else if f = "0002_c.sql" then some "SQLC"
      else none
    execOk := fun _ => true
    saveOk := true
    now := 10 }

/-- Witness for C6: the second of three pending migrations is unreadable, so
the run stops after one success and fails with "Failed after 1/3". -/
theorem apply_stops_at_first_failure_witness :
    (runMigrations envC6).error =
      some ("Failed after " ++ toString (["0000_a.sql"] : List String).length ++ "/" ++
        toString (pendingOf envC6).length ++ " migrations") ∧
    dbExecFiles (runMigrations envC6).trace =
      ["0000_a.sql"] ++ dbExecFiles (executeMigration envC6 "0001_b.sql").2 :=
  apply_stops_at_first_failure envC6 ["0000_a.sql"] "0001_b.sql" ["0002_c.sql"]
    (by decide) (by decide) (by decide)

/-- C5: on a non-empty journal, rollback with a target tag matching no entry
throws "Migration not found", performs zero database actions, and leaves
the journal unchanged. -/
theorem rollback_unknown_target_fails_cleanly (env : Env)
    (journal : MigrationJournal) (t : String) (count : Option Int)
    (hj : env.journalOnDisk = some journal)
    (hne : journal.entries ≠ [])
    (ht : t ≠ "")
    (hmiss : ∀ e ∈ journal.entries, e.tag ≠ t) :
    rollbackMigrations env (some t) count =
      { error := some ("Migration not found: " ++ t), trace := [],
        finalJournal := env.journalOnDisk } := by
  have hlen : ¬ journal.entries.length = 0 := by
    simpa [List.length_eq_zero] using hne
  have hfind : findIndex (fun e => e.tag == t) journal.entries = none :=
    findIndex_eq_none (fun e he => by simpa using hmiss e he)
  have htb : (t == "") = false := by
    simpa using ht
  simp [rollbackMigrations, readMigrationJournal, hj, hlen, htb, hfind]

def journalC5 : MigrationJournal :=
  { version := "7", dialect := "postgresql",
    entries := [{ idx := 0, version := "7", whenMs := 1, tag := "t0", breakpoints := true }] }

def envC5 : Env :=
  { dirListing := some []
    journalOnDisk := some journalC5
    fileContent := fun _ => none
    execOk := fun _ => true
    saveOk := true
    now := 10 }

/-- Witness for C5: a one-entry journal and the unknown target
"does-not-exist". -/
theorem rollback_unknown_target_fails_cleanly_witness :
    rollbackMigrations envC5 (some "does-not-exist") none =
      { error := some ("Migration not found: " ++ "does-not-exist"), trace := [],
        finalJournal := envC5.journalOnDisk } :=
  rollback_unknown_target_fails_cleanly envC5 journalC5 "does-not-exist" none
    rfl (by decide) (by decide) (by decide)

/-- C10 (implicit behavior): rollback on an absent or empty journal succeeds
as a no-op before its arguments are examined, so even an unknown target tag
raises no error there; and a zero or negative count with no target behaves
exactly like the no-argument default, which rolls back the single most
recent journal entry. -/
theorem rollback_empty_noop_and_nonpositive_count_default
    (env : Env) (target : Option String) (count : Option Int) (c : Int)
    (hc : c ≤ 0) :
    ((env.journalOnDisk = none ∨
        ∃ j, env.journalOnDisk = some j ∧ j.entries = []) →
      rollbackMigrations env target count =
        { error := none, trace := [], finalJournal := env.journalOnDisk }) ∧
    rollbackMigrations env none (some c) = rollbackMigrations env none none ∧
    (∀ j last content, env.journalOnDisk = some j →
      j.entries.getLast? = some last →
      env.fileContent (last.tag ++ ".sql") = some content →
      dbExecFiles (rollbackMigrations env none (some c)).trace =
        [last.tag ++ ".sql"]) := by
  have hsel : ∀ j : MigrationJournal,
      selectByCountOrDefault j (some c) = selectByCountOrDefault j none := by
    intro j
    simp [selectByCountOrDefault, not_lt.mpr hc]
  refine ⟨?_, ?_, ?_⟩
  · rintro (hj | ⟨j, hj, hemp⟩)
    · simp [rollbackMigrations, readMigrationJournal, hj]
    · simp [rollbackMigrations, readMigrationJournal, hj, hemp]
  · cases hj : env.journalOnDisk with
    | none => simp [rollbackMigrations, readMigrationJournal, hj]
    | some j =>
      simp only [rollbackMigrations, readMigrationJournal, hj, hsel j]
  · intro j last content hj hlast hcontent
    have hne : ¬ j.entries.length = 0 := by
      cases hent : j.entries with
      | nil => rw [hent] at hlast; simp at hlast
      | cons a as => simp [hent]
    have hdef : defaultSelect j = [last] := by
      simp [defaultSelect, hlast]
    have hEM : executeMigration env (last.tag ++ ".sql") =
        (env.execOk content, [Action.dbExec (last.tag ++ ".sql") content]) :=
      executeMigration_eq_of_content hcontent
    have hsel2 : selectByCountOrDefault j (some c) = [last] := by
      rw [hsel j]
      show defaultSelect j = [last]
      exact hdef
    by_cases hE : env.execOk content = true
    · simp [rollbackMigrations, readMigrationJournal, hj, hne, hsel2,
        rollbackLoop, hEM, hE,
        dbExecFiles_cons_exec, dbExecFiles_cons_write, dbExecFiles_nil]
    · rw [Bool.not_eq_true] at hE
      simp [rollbackMigrations, readMigrationJournal, hj, hne, hsel2,
        rollbackLoop, hEM, hE,
        dbExecFiles_cons_exec, dbExecFiles_cons_write, dbExecFiles_nil]

def journalC10 : MigrationJournal :=
  { version := "7", dialect := "postgresql",
    entries := [{ idx := 0, version := "7", whenMs := 1, tag := "t0", breakpoints := true },
                { idx := 1, version := "7", whenMs := 2, tag := "t1", breakpoints := true }] }

def envC10 : Env :=
  { dirListing := some []
    journalOnDisk := some journalC10
    fileContent := fun f => if f = "t1.sql" then some "S1" else none
    execOk := fun _ => true
    saveOk := true
    now := 10 }

def envC10empty : Env :=
  { dirListing := some []
    journalOnDisk := some { version := "7", dialect := "postgresql", entries := [] }
    fileContent := fun _ => none
    execOk := fun _ => true
    saveOk := true
    now := 10 }

/-- Witness for C10: an unknown target on an empty journal succeeds as a
no-op, and count 0 on a two-entry journal rolls back exactly the most
recent entry's file. -/
theorem rollback_empty_noop_and_nonpositive_count_default_witness :
    rollbackMigrations envC10empty (some "ghost") (some 3) =
      { error := none, trace := [], finalJournal := envC10empty.journalOnDisk } ∧
    rollbackMigrations envC10 none (some 0) = rollbackMigrations envC10 none none ∧
    dbExecFiles (rollbackMigrations envC10 none (some 0)).trace = ["t1" ++ ".sql"] := by
  refine ⟨?_, ?_, ?_⟩
  · exact (rollback_empty_noop_and_nonpositive_count_default envC10empty
      (some "ghost") (some 3) 0 (by decide)).1
      (Or.inr ⟨_, rfl, rfl⟩)
  · exact (rollback_empty_noop_and_nonpositive_count_default envC10
      none none 0 (by decide)).2.1
  · exact (rollback_empty_noop_and_nonpositive_count_default envC10
      none none 0 (by decide)).2.2
      journalC10 { idx := 1, version := "7", whenMs := 2, tag := "t1", breakpoints := true }
      "S1" rfl (by decide) (by decide)

def envC1 : Env :=
  { dirListing := some ["0001_b.sql", "0000_a.sql"]
    journalOnDisk := some { version := "7", dialect := "postgresql", entries := [] }
    fileContent := fun f =>
      if f = "0000_a.sql" then some "SQLA"
      else if f = "0001_b.sql" then some "SQLB"
      else none
    execOk := fun _ => true
    saveOk := true
    now := 1000 }

/-- C1 (code bug): starting from an empty on-disk journal with two pending
migrations that both execute successfully, the run reports success and
executes both files in order, yet the persisted journal afterwards contains
a single entry — for the second file, with idx 0 — instead of one entry per
applied migration: each `updatedJournal` extends the stale `journal`
constant read at the start of the run, which is never rebound, so each save
overwrites the previous one. -/
theorem apply_stale_journal_loses_entries :
    (runMigrations envC1).error = none ∧
    dbExecFiles (runMigrations envC1).trace = ["0000_a.sql", "0001_b.sql"] ∧
    ((runMigrations envC1).finalJournal.map
      (fun j => j.entries.map (fun e => (e.idx, e.tag)))) =
      some [(0, "0001_b")] := by
  decide

def envC3 : Env :=
  { dirListing := some []
    journalOnDisk := some { version := "7", dialect := "postgresql", entries :=
      [ { idx := 0, version := "7", whenMs := 1, tag := "t0", breakpoints := true },
        { idx := 1, version := "7", whenMs := 2, tag := "t1", breakpoints := true },
        { idx := 2, version := "7", whenMs := 3, tag := "t2", breakpoints := true } ] }
    fileContent := fun f =>
      if f = "t0.sql" then some "S0"
      else if f = "t1.sql" then some "S1"
      else if f = "t2.sql" then some "S2"
      else none
    execOk := fun _ => true
    saveOk := true
    now := 1000 }

/-- C3 (code bug): on a journal [t0, t1, t2], rollback with count = 2 does
undo t2 first and then t1, in that order, but the persisted journal
afterwards contains [t0, t2] rather than only t0: each save filters the
stale journal snapshot read at the start of the run, so the second write
resurrects the entry removed by the first. -/
theorem rollback_stale_journal_resurrects_entries :
    (rollbackMigrations envC3 none (some 2)).error = none ∧
    dbExecFiles (rollbackMigrations envC3 none (some 2)).trace = ["t2.sql", "t1.sql"] ∧
    ((rollbackMigrations envC3 none (some 2)).finalJournal.map
      (fun j => j.entries.map MigrationEntry.tag)) = some ["t0", "t2"] := by
  decide

def envC2 : Env :=
  { dirListing := some ["0000_a.sql", "0001_b.sql"]
    journalOnDisk := some { version := "7", dialect := "postgresql", entries := [] }
    fileContent := fun f =>
      if f = "0000_a.sql" then some "SQLA"
      else if f = "0001_b.sql" then some "SQLB"
      else none
    execOk := fun _ => true
    saveOk := true
    now := 1000 }

def envC2second : Env :=
  { envC2 with journalOnDisk := (runMigrations envC2).finalJournal }

/-- C2 counterexample: a first apply run over two pending migrations
succeeds, but the immediate second run with no new files executes a
migration against the database again and changes the journal — apply is not
idempotent for every directory and journal state. -/
theorem apply_not_idempotent_counterexample :
    (runMigrations envC2).error = none ∧
    dbExecFiles (runMigrations envC2second).trace = ["0000_a.sql"] ∧
    (runMigrations envC2second).finalJournal ≠ envC2second.journalOnDisk := by
  decide

def envC4 : Env :=
  { dirListing := some ["0000_a.sql"]
    journalOnDisk := some { version := "7", dialect := "postgresql", entries := [] }
    fileContent := fun f => if f = "0000_a.sql" then some "SQLA" else none
    execOk := fun _ => true
    saveOk := false
    now := 10 }

/-- C4 counterexample: journal writes fail (saveOk = false); a migration
executes against the database and the journal write is attempted and fails
(the on-disk journal is unchanged), yet the run reports overall success —
the persistence failure is not surfaced as a failed operation. -/
theorem journal_write_failure_not_surfaced :
    envC4.saveOk = false ∧
    (runMigrations envC4).error = none ∧
    journalWrites (runMigrations envC4).trace ≠ [] ∧
    (runMigrations envC4).finalJournal = envC4.journalOnDisk := by
  decide

/-- C4 amended: when persisting the journal fails after migrations have been
executed against the database, the failure is silently ignored rather than
surfaced: the run still reports success when every pending migration's SQL
succeeded, each success attempts exactly one journal write with no retry,
and the applied migrations remain unrecorded — the on-disk journal is
unchanged. -/
theorem journal_write_failure_silently_ignored (env : Env) (j : MigrationJournal)
    (hsave : env.saveOk = false)
    (hj : env.journalOnDisk = some j)
    (hexec : ∀ f ∈ pendingOf env, (executeMigration env f).1 = true) :
    (runMigrations env).error = none ∧
    (runMigrations env).finalJournal = env.journalOnDisk ∧
    (journalWrites (runMigrations env).trace).length = (pendingOf env).length := by
  refine ⟨(runMigrations_all_success env hexec).1, ?_, ?_⟩
  · rw [runMigrations_def]
    by_cases h0 : (pendingOf env).length = 0
    · simp [h0]
    · have hfr := applyLoop_saveOk_false_frame env env.journalOnDisk hsave
        (pendingOf env) env.journalOnDisk
      have hsucc := applyLoop_success_all env env.journalOnDisk (pendingOf env)
        env.journalOnDisk hexec
      simp [h0, hsucc.1, hfr]
  · rw [runMigrations_def]
    by_cases h0 : (pendingOf env).length = 0
    · simp [h0, journalWrites_nil]
    · rw [hj]
      have hsucc := applyLoop_success_all env (some j) (pendingOf env) (some j) hexec
      have hw := applyLoop_writes_count env j (pendingOf env) (some j) hexec
      simp [h0, hsucc.1, hw]

/-- Witness for the amended C4 at a concrete environment with failing
journal writes. -/
theorem journal_write_failure_silently_ignored_witness :
    (runMigrations envC4).error = none ∧
    (runMigrations envC4).finalJournal = envC4.journalOnDisk ∧
    (journalWrites (runMigrations envC4).trace).length = (pendingOf envC4).length :=
  journal_write_failure_silently_ignored envC4
    { version := "7", dialect := "postgresql", entries := [] }
    rfl rfl (by decide)

lemma getPendingMigrations_nil_after (files : List String) (applied : List String)
    (f : String)
    (hp : getPendingMigrations files applied = [f]) :
    getPendingMigrations files (applied ++ [replaceFirst f ".sql"]) = [] := by
  unfold getPendingMigrations at *
  rw [List.filter_eq_nil_iff]
  intro a ha
  by_cases hmem : replaceFirst a ".sql" ∈ applied
  · simp [List.mem_append, hmem]
  · have hfil : a ∈ List.filter
        (fun file => !(applied.contains (replaceFirst file ".sql"))) files :=
      List.mem_filter.mpr ⟨ha, by simp [hmem]⟩
    rw [hp] at hfil
    have haf : a = f := by simpa using hfil
    subst haf
    simp [List.mem_append]

/-- C2 amended: apply is idempotent provided the on-disk journal is present,
journal writes succeed, and the first run had at most one pending migration:
if that first run succeeds, an immediate second run with no new migration
files performs zero database actions and leaves the journal exactly as the
first run left it. -/
theorem apply_idempotent_single_pending (env : Env) (j : MigrationJournal)
    (hj : env.journalOnDisk = some j)
    (hsave : env.saveOk = true)
    (hlen : (pendingOf env).length ≤ 1)
    (hfirst : (runMigrations env).error = none) :
    runMigrations { env with journalOnDisk := (runMigrations env).finalJournal } =
      { error := none, trace := [],
        finalJournal := (runMigrations env).finalJournal } := by
  cases hp : pendingOf env with
  | nil =>
    have hrun : runMigrations env =
        { error := none, trace := [], finalJournal := env.journalOnDisk } := by
      rw [runMigrations_def, hp]
      simp
    have hfin : (runMigrations env).finalJournal = env.journalOnDisk := by
      rw [hrun]
    have henv : ({ env with journalOnDisk := (runMigrations env).finalJournal } : Env)
        = env := by
      rw [hfin]
    rw [henv, hfin]
    exact hrun
  | cons f rest =>
    have hrest : rest = [] := by
      rw [hp] at hlen
      simp only [List.length_cons] at hlen
      have h0 : rest.length = 0 := by omega
      exact List.length_eq_zero.mp h0
    subst hrest
    by_cases hE : (executeMigration env f).1 = true
    · obtain ⟨c, hc, hok, hEM⟩ := executeMigration_success hE
      have hfin : (runMigrations env).finalJournal =
          some { j with entries := j.entries ++
            [{ idx := j.entries.length, version := j.version, whenMs := env.now,
               tag := replaceFirst f ".sql", breakpoints := true }] } := by
        rw [runMigrations_def, hp, hj]
        simp [applyLoop, hEM, hsave]
      have hp' : getPendingMigrations (getMigrationFiles env.dirListing)
          (getAppliedMigrations (some j)) = [f] := by
        rw [← hj]
        exact hp
      have hpend2 :
          pendingOf { env with journalOnDisk := (runMigrations env).finalJournal } = [] := by
        show getPendingMigrations (getMigrationFiles env.dirListing)
          (getAppliedMigrations (runMigrations env).finalJournal) = []
        rw [hfin]
        have happlied : getAppliedMigrations
            (some { j with entries := j.entries ++
              [{ idx := j.entries.length, version := j.version, whenMs := env.now,
                 tag := replaceFirst f ".sql", breakpoints := true }] }) =
            getAppliedMigrations (some j) ++ [replaceFirst f ".sql"] := by
          simp [getAppliedMigrations]
        rw [happlied]
        exact getPendingMigrations_nil_after _ _ f hp'
      have hrun2 : runMigrations
          { env with journalOnDisk := (runMigrations env).finalJournal } =
          { error := none, trace := [],
            finalJournal :=
              ({ env with journalOnDisk := (runMigrations env).finalJournal } : Env).journalOnDisk } := by
        rw [runMigrations_def, hpend2]
        simp
      rw [hrun2]
    · exfalso
      rw [Bool.not_eq_true] at hE
      rw [runMigrations_def, hp, hj] at hfirst
      simp [applyLoop, hE] at hfirst

def envC2single : Env :=
  { dirListing := some ["0000_a.sql"]
    journalOnDisk := some { version := "7", dialect := "postgresql", entries := [] }
    fileContent := fun f => if f = "0000_a.sql" then some "SQLA" else none
    execOk := fun _ => true
    saveOk := true
    now := 10 }

/-- Witness for the amended C2: one pending migration, journal present,
writes succeed; the second run is a no-op. -/
theorem apply_idempotent_single_pending_witness :
    runMigrations
      { envC2single with journalOnDisk := (runMigrations envC2single).finalJournal } =
      { error := none, trace := [],
        finalJournal := (runMigrations envC2single).finalJournal } :=
  apply_idempotent_single_pending envC2single
    { version := "7", dialect := "postgresql", entries := [] }
    rfl rfl (by decide) (by decide)

end Migrate
